import Mathlib

/-!
Verification of the rembg-offline background-removal library.

This file gives a shallow embedding, in Lean 4, of the parts of the
repository that its specification makes claims about:

* the sessioned progress broadcaster (`src/progress.ts`, class `OnnxProgress`);
* the patched-fetch single-flight / memory-cache layer and the session
  manager (`src/init.ts`, the first document of `src/unnamed/part_001`:
  `patchFetchOnce`, `forceWASMMode`, `init`);
* the stripe compositing engine (worker `src/unnamed/part_000` first
  document, and the main-thread fallback in `src/index.ts`), together with
  the preview-size computation.

Pure computations are translated into Lean functions; the stateful
JavaScript modules become explicit state records with one Lean function per
operation, and the asynchronous interleavings that the claims depend on are
modelled as explicit event traces over those state records.  JavaScript
numbers that only ever hold integers are modelled as `Nat`/`Int` (with the
`| 0` coercion made explicit); the one genuinely fractional computation
(the preview scale) is modelled over `ℚ`, whose `round` agrees with
JavaScript `Math.round` on the non-negative values that occur.
-/

/-! ## Progress broadcaster (`src/progress.ts`) -/

/-- The five phases of `ProgressPhase` in `src/progress.ts`. -/
inductive ProgressPhase where
  | idle
  | downloading
  | building
  | ready
  | error
deriving DecidableEq, Repr

/-- The broadcaster state record `ProgressState` of `src/progress.ts`:
`{phase, progress, errorMsg?, sessionId}`.  `progress` is a percentage,
`sessionId` the monotonically increasing (32-bit wrapped) session tag. -/
structure ProgressState where
  phase : ProgressPhase
  progress : Nat
  errorMsg : Option String
  sessionId : Int
deriving DecidableEq, Repr

/-- The initial state of the `OnnxProgress` singleton:
`{ phase: 'idle', progress: 0, sessionId: 0 }`. -/
def initialProgressState : ProgressState :=
  { phase := .idle, progress := 0, errorMsg := none, sessionId := 0 }

/-- JavaScript `(n) | 0`: coercion to a signed 32-bit integer. -/
def toInt32 (n : Int) : Int :=
  (n + 2 ^ 31) % 2 ^ 32 - 2 ^ 31

/-- `OnnxProgress.beginNewSession`: replaces the state wholesale with
`{ phase: 'idle', progress: 0, sessionId: (sessionId + 1) | 0 }` (the old
`errorMsg` is dropped because the record is rebuilt, not spread), emits,
and returns the fresh session id. -/
def beginNewSession (s : ProgressState) : ProgressState × Int :=
  let sid := toInt32 (s.sessionId + 1)
  ({ phase := .idle, progress := 0, errorMsg := none, sessionId := sid }, sid)

/-- `OnnxProgress.setNetworkProgress(percent, sessionId)`.  If the supplied
session id is stale the method returns before touching anything, so the
state is unchanged and `emit` is not called; the returned `Bool` records
whether `emit` ran (i.e. whether subscribers were notified).  Otherwise the
state becomes the spread `{...state, phase:'downloading',
progress: max(0, min(100, floor(percent)))}`; `floor` is the identity on
the integer model of `percent`. -/
def setNetworkProgress (percent : Int) (sessionId : Int) (s : ProgressState) :
    ProgressState × Bool :=
  if sessionId ≠ s.sessionId then (s, false)
  else ({ s with phase := .downloading, progress := (max 0 (min 100 percent)).toNat }, true)

/-- `OnnxProgress.setBuilding(sessionId)`: stale ids are dropped before any
mutation; otherwise `progress := max(current, 99)` and `phase := building`. -/
def setBuilding (sessionId : Int) (s : ProgressState) : ProgressState × Bool :=
  if sessionId ≠ s.sessionId then (s, false)
  else ({ s with phase := .building, progress := max s.progress 99 }, true)

/-- `OnnxProgress.setReady(sessionId)`: stale ids are dropped; otherwise
`phase := ready`, `progress := 100`. -/
def setReady (sessionId : Int) (s : ProgressState) : ProgressState × Bool :=
  if sessionId ≠ s.sessionId then (s, false)
  else ({ s with phase := .ready, progress := 100 }, true)

/-- `OnnxProgress.setError(sessionId, errorMsg)`: stale ids are dropped;
otherwise `phase := error`, the message is attached and `progress := 0`. -/
def setError (sessionId : Int) (errorMsg : Option String) (s : ProgressState) :
    ProgressState × Bool :=
  if sessionId ≠ s.sessionId then (s, false)
  else ({ s with phase := .error, errorMsg := errorMsg, progress := 0 }, true)

/-- The clamped percentage reported by the tracked download stream in
`src/init.ts`: `Math.min(99, Math.floor((loaded / total) * 100))`, modelled
with exact natural division (both operands are byte counts). -/
def fetchPct (loaded total : Nat) : Nat :=
  min 99 (loaded * 100 / total)

/-- C3: a broadcaster operation called with a sessionId different from the
current active one returns before mutating anything: the whole state
(phase, progress, errorMsg, sessionId) is unchanged and `emit` never runs,
so no subscriber is notified.  This holds for `setNetworkProgress`
(reportDownload), `setBuilding`, `setReady` and `setError`. -/
theorem stale_session_updates_are_dropped
    (s : ProgressState) (sid percent : Int) (msg : Option String)
    (hstale : sid ≠ s.sessionId) :
    setNetworkProgress percent sid s = (s, false) ∧
    setBuilding sid s = (s, false) ∧
    setReady sid s = (s, false) ∧
    setError sid msg s = (s, false) := by
  refine ⟨?_, ?_, ?_, ?_⟩ <;> simp [setNetworkProgress, setBuilding, setReady, setError, hstale]

/-- Witness for `stale_session_updates_are_dropped` at a concrete stale
update: current session is 2, the update is tagged 1. -/
theorem stale_session_updates_are_dropped_witness :
    (1 : Int) ≠ (⟨.downloading, 55, none, 2⟩ : ProgressState).sessionId ∧
    setNetworkProgress 10 1 ⟨.downloading, 55, none, 2⟩ = (⟨.downloading, 55, none, 2⟩, false) ∧
    setBuilding 1 ⟨.downloading, 55, none, 2⟩ = (⟨.downloading, 55, none, 2⟩, false) ∧
    setReady 1 ⟨.downloading, 55, none, 2⟩ = (⟨.downloading, 55, none, 2⟩, false) ∧
    setError 1 (some "boom") ⟨.downloading, 55, none, 2⟩ = (⟨.downloading, 55, none, 2⟩, false) := by
  have h := stale_session_updates_are_dropped ⟨.downloading, 55, none, 2⟩ 1 10 (some "boom")
    (by decide)
  exact ⟨by decide, h.1, h.2.1, h.2.2.1, h.2.2.2⟩

/-- C4 counterexample: `setNetworkProgress` clamps to 0..100, not to 0..99,
so an accepted `reportDownload(100)` sets progress to exactly 100 while the
phase becomes `downloading`, not `ready`.  (The clamp `Math.max(0,
Math.min(100, Math.floor(percent)))` admits 100.) -/
theorem download_can_reach_100_outside_ready :
    (setNetworkProgress 100 1 ⟨.idle, 0, none, 1⟩).1.progress = 100 ∧
    (setNetworkProgress 100 1 ⟨.idle, 0, none, 1⟩).1.phase = .downloading ∧
    (setNetworkProgress 100 1 ⟨.idle, 0, none, 1⟩).1.phase ≠ .ready := by
  refine ⟨?_, ?_, ?_⟩ <;> decide

/-- C4 (amended): an accepted `reportDownload` with percent at most 99
leaves progress strictly below 100, an accepted `reportBuilding` leaves
progress strictly below 100 whenever the current progress is below 100
(it takes `max(current, 99)`), an accepted `reportError` resets progress
to 0, and `reportReady` sets progress to exactly 100 in phase `ready`.
Moreover every in-repository caller of `setNetworkProgress` passes at most
99 (`fetchPct` is clamped by `min 99`), so in system executions a progress
of 100 is observable only in the `ready` phase; but the clamp itself is to
0..100, so a direct percent ≥ 100 can set 100 in the `downloading` phase
(see the counterexample). -/
theorem progress_100_reserved_for_ready_amended
    (s : ProgressState) (sid percent : Int) (msg : Option String)
    (loaded total : Nat) :
    (percent ≤ 99 → ((setNetworkProgress percent sid s).1.progress < 100 ∨
        (setNetworkProgress percent sid s).1 = s)) ∧
    (s.progress < 100 → (setBuilding sid s).1.progress < 100) ∧
    ((setError sid msg s).1.progress ≤ s.progress ∨ (setError sid msg s).1.progress = 0) ∧
    (sid = s.sessionId →
      (setReady sid s).1.progress = 100 ∧ (setReady sid s).1.phase = .ready) ∧
    fetchPct loaded total ≤ 99 := by
  refine ⟨?_, ?_, ?_, ?_, ?_⟩
  · intro hp
    by_cases h : sid = s.sessionId
    · left
      simp only [setNetworkProgress, h, ne_eq, not_true_eq_false, if_false]
      have h1 : max 0 (min 100 percent) ≤ 99 := by omega
      omega
    · right
      simp [setNetworkProgress, h]
  · intro hlt
    by_cases h : sid = s.sessionId
    · simp only [setBuilding, h, ne_eq, not_true_eq_false, if_false]
      omega
    · simp [setBuilding, h, hlt]
  · by_cases h : sid = s.sessionId
    · right; simp [setError, h]
    · left; simp [setError, h]
  · intro h
    simp [setReady, h]
  · exact Nat.min_le_left _ _

/-- Witness for `progress_100_reserved_for_ready_amended` at a concrete
state: session 1 at 55% downloading, a 10% report, building, error, ready
and a half-downloaded 1000-byte artifact. -/
theorem progress_100_reserved_for_ready_amended_witness :
    ((10 : Int) ≤ 99 ∧ ((setNetworkProgress 10 1 ⟨.downloading, 55, none, 1⟩).1.progress < 100 ∨
        (setNetworkProgress 10 1 ⟨.downloading, 55, none, 1⟩).1 = ⟨.downloading, 55, none, 1⟩)) ∧
    ((⟨.downloading, 55, none, 1⟩ : ProgressState).progress < 100 ∧
      (setBuilding 1 ⟨.downloading, 55, none, 1⟩).1.progress < 100) ∧
    ((1 : Int) = (⟨.downloading, 55, none, 1⟩ : ProgressState).sessionId ∧
      (setReady 1 ⟨.downloading, 55, none, 1⟩).1.progress = 100) ∧
    fetchPct 500 1000 ≤ 99 := by
  have h := progress_100_reserved_for_ready_amended ⟨.downloading, 55, none, 1⟩ 1 10
    (some "boom") 500 1000
  exact ⟨⟨by decide, h.1 (by decide)⟩, ⟨by decide, h.2.1 (by decide)⟩,
    ⟨by decide, (h.2.2.2.1 (by decide)).1⟩, h.2.2.2.2⟩

/-- C5 counterexample: within one session (id 1 throughout), an accepted
`reportDownload` can lower progress: after reaching 55%, a later accepted
`setNetworkProgress(10, 1)` drops progress to 10.  This is exactly what
happens when a second artifact download begins inside the same session
(each new tracked stream starts by reporting 0).  The code sets
`progress := clamp(percent)` with no `max` against the current value. -/
theorem download_progress_can_decrease :
    ((setNetworkProgress 55 1 ⟨.idle, 0, none, 1⟩).1.progress = 55) ∧
    ((setNetworkProgress 10 1 (setNetworkProgress 55 1 ⟨.idle, 0, none, 1⟩).1).1.progress = 10) ∧
    ((setNetworkProgress 10 1 (setNetworkProgress 55 1 ⟨.idle, 0, none, 1⟩).1).1.sessionId =
      (setNetworkProgress 55 1 ⟨.idle, 0, none, 1⟩).1.sessionId) := by
  refine ⟨?_, ?_, ?_⟩ <;> decide

/-- C5 (amended): `setBuilding` and `setReady` never lower progress
(whether accepted or dropped; for `setReady` this needs the invariant
`progress ≤ 100`, which every operation preserves), `setError` and
`beginNewSession` reset progress to 0, and the per-stream download
percentage `fetchPct` is non-decreasing in the bytes received — but an
accepted `setNetworkProgress` sets progress to exactly the clamp of its
argument and can therefore lower it (each new artifact download within a
session restarts the percentage from 0; see the counterexample). -/
theorem progress_monotone_amended
    (s : ProgressState) (sid : Int) (msg : Option String)
    (loaded loaded' total : Nat) :
    ((setBuilding sid s).1.progress ≥ s.progress) ∧
    (s.progress ≤ 100 → (setReady sid s).1.progress ≥ s.progress) ∧
    (sid = s.sessionId → (setError sid msg s).1.progress = 0) ∧
    ((beginNewSession s).1.progress = 0) ∧
    (loaded ≤ loaded' → fetchPct loaded total ≤ fetchPct loaded' total) ∧
    (sid = s.sessionId → (setNetworkProgress 0 sid s).1.progress = 0) := by
  refine ⟨?_, ?_, ?_, ?_, ?_, ?_⟩
  · by_cases h : sid = s.sessionId
    · simp only [setBuilding, h, ne_eq, not_true_eq_false, if_false]
      omega
    · simp [setBuilding, h]
  · intro hle
    by_cases h : sid = s.sessionId
    · simp only [setReady, h, ne_eq, not_true_eq_false, if_false]
      omega
    · simp [setReady, h]
  · intro h; simp [setError, h]
  · simp [beginNewSession]
  · intro h
    exact min_le_min (le_refl 99) (Nat.div_le_div_right (Nat.mul_le_mul_right 100 h))
  · intro h; simp [setNetworkProgress, h]

/-- Witness for `progress_monotone_amended` at a concrete mid-session
state (55% downloading, session 1, artifact half downloaded). -/
theorem progress_monotone_amended_witness :
    ((setBuilding 1 ⟨.downloading, 55, none, 1⟩).1.progress ≥ 55) ∧
    ((⟨.downloading, 55, none, 1⟩ : ProgressState).progress ≤ 100 ∧
      (setReady 1 ⟨.downloading, 55, none, 1⟩).1.progress ≥ 55) ∧
    ((1 : Int) = (⟨.downloading, 55, none, 1⟩ : ProgressState).sessionId ∧
      (setError 1 (some "boom") ⟨.downloading, 55, none, 1⟩).1.progress = 0) ∧
    ((500 : Nat) ≤ 800 ∧ fetchPct 500 1000 ≤ fetchPct 800 1000) := by
  have h := progress_monotone_amended ⟨.downloading, 55, none, 1⟩ 1 (some "boom") 500 800 1000
  exact ⟨h.1, ⟨by decide, h.2.1 (by decide)⟩, ⟨by decide, h.2.2.1 (by decide)⟩,
    ⟨by decide, h.2.2.2.2.1 (by decide)⟩⟩

/-! ## Fetch cache and single-flight layer (`src/init.ts`, `patchFetchOnce`) -/

/-- Substring test on character lists: does `s` contain `pat` as a
contiguous substring?  Auxiliary for `urlIncludes`. -/
def charsIncludes (pat : List Char) : List Char → Bool
  | [] => pat.isEmpty
  | c :: rest => pat.isPrefixOf (c :: rest) || charsIncludes pat rest

/-- JavaScript `url.includes(pat)`: substring test on the string's
characters. -/
def urlIncludes (s pat : String) : Bool :=
  charsIncludes pat.data s.data

/-- The artifact-path pattern: `const ONNX_PATH_HINT = "/onnx/"`. -/
def ONNX_PATH_HINT : String := "/onnx/"

/-- `Uint8Array.prototype.set(src, off)` on a buffer modelled as a list:
overwrite `src.length` bytes starting at `off` (the callers only use it
in-bounds). -/
def setArr (dst : List Nat) (off : Nat) (src : List Nat) : List Nat :=
  dst.take off ++ src ++ dst.drop (off + src.length)

/-- The accumulation loop of the stream-completion handler: for each chunk
`c`, `merged.set(c, off); off += c.byteLength`. -/
def mergeLoop : List (List Nat) → Nat → List Nat → List Nat
  | [], _, merged => merged
  | c :: rest, off, merged => mergeLoop rest (off + c.length) (setArr merged off c)

/-- `chunks.reduce((s, c) => s + c.byteLength, 0)`: the total byte length
of the accumulated chunks. -/
def totalLenOf (chunks : List (List Nat)) : Nat :=
  chunks.foldl (fun s c => s + c.length) 0

/-- The buffer built on stream completion in `patchFetchOnce`:
`new Uint8Array(totalLen)` (zero-filled) followed by the `set` loop over
the accumulated chunks.  This buffer is stored in `memCache` and resolved
to every single-flight waiter. -/
def mergeChunks (chunks : List (List Nat)) : List Nat :=
  mergeLoop chunks 0 (List.replicate (totalLenOf chunks) 0)

theorem foldl_len_shift (l : List (List Nat)) :
    ∀ n : Nat, l.foldl (fun s c => s + c.length) n = n + totalLenOf l := by
  induction l with
  | nil => intro n; simp [totalLenOf]
  | cons c rest ih =>
    intro n
    simp only [List.foldl_cons, totalLenOf]
    rw [ih (n + c.length), ih (0 + c.length)]
    omega

theorem totalLenOf_cons (c : List Nat) (rest : List (List Nat)) :
    totalLenOf (c :: rest) = c.length + totalLenOf rest := by
  simpa [totalLenOf] using foldl_len_shift rest c.length

theorem drop_len_add {α : Type} (l₁ l₂ : List α) (k : Nat) :
    (l₁ ++ l₂).drop (l₁.length + k) = l₂.drop k := by
  induction l₁ with
  | nil => simp
  | cons a t ih => simp [Nat.succ_add, ih]

theorem drop_replicate_add {α : Type} (x : α) (a b : Nat) :
    (List.replicate (a + b) x).drop a = List.replicate b x := by
  induction a with
  | zero => simp
  | succ n ih => simp [List.replicate_succ, Nat.succ_add, ih]

theorem mergeLoop_spec (chunks : List (List Nat)) :
    ∀ pre : List Nat,
      mergeLoop chunks pre.length (pre ++ List.replicate (totalLenOf chunks) 0) =
        pre ++ chunks.flatten := by
  induction chunks with
  | nil => intro pre; simp [mergeLoop, totalLenOf]
  | cons c rest ih =>
    intro pre
    rw [totalLenOf_cons]
    simp only [mergeLoop]
    have hset : setArr (pre ++ List.replicate (c.length + totalLenOf rest) 0) pre.length c =
        (pre ++ c) ++ List.replicate (totalLenOf rest) 0 := by
      unfold setArr
      have h2 : (pre ++ List.replicate (c.length + totalLenOf rest) 0).drop
          (pre.length + c.length) = List.replicate (totalLenOf rest) 0 := by
        rw [drop_len_add pre (List.replicate (c.length + totalLenOf rest) 0) c.length,
          drop_replicate_add]
      rw [List.take_left, h2]
    rw [hset, show pre.length + c.length = (pre ++ c).length by simp, ih (pre ++ c)]
    simp

/-- The buffer stored in `memCache` (and resolved to every waiter) is
byte-for-byte the concatenation of the chunks that were streamed to the
primary requester. -/
theorem mergeChunks_eq_flatten (chunks : List (List Nat)) :
    mergeChunks chunks = chunks.flatten := by
  simpa [mergeChunks] using mergeLoop_spec chunks []

/-- The mutable module state of the patched-fetch layer in `src/init.ts`:
`memCache` (URL → completed immutable buffer, never evicted), `inflight`
(URLs whose shared buffer promise has been registered — this happens only
after `await originalFetch(...)` returns a response with a body), and
`pendingNet` (URLs for which `originalFetch` has been issued but whose
response headers have not yet arrived, so no `inflight` entry exists yet).
-/
structure FetchState where
  memCache : List (String × List Nat)
  inflight : List String
  pendingNet : List String
deriving DecidableEq, Repr

/-- The patched-fetch module starts with empty maps. -/
def initFetchState : FetchState :=
  { memCache := [], inflight := [], pendingNet := [] }

/-- The four branches of the patched `window.fetch` wrapper. -/
inductive FetchBranch where
  | passthrough
  | cacheHit (buf : List Nat)
  | joinInflight
  | network
deriving DecidableEq, Repr

/-- The synchronous branch selection at the top of the patched fetch:
non-matching URLs pass through to `originalFetch`; a cached URL is served
from memory with no network I/O; a URL with a registered in-flight promise
is served by streaming that promise's eventual buffer; otherwise the real
network request is issued. -/
def fetchDispatch (s : FetchState) (url : String) : FetchBranch :=
  if urlIncludes url ONNX_PATH_HINT = false then .passthrough
  else
    match s.memCache.lookup url with
    | some buf => .cacheHit buf
    | none => if s.inflight.contains url then .joinInflight else .network

/-- Events of the patched-fetch layer.  `networkIssue` is the moment
`originalFetch` is called for a matching URL (the only event that puts
bytes on the network); `headersArrive` is the return of that await with a
body, at which point — and only then — `inflight.set(url, bufPromise)`
runs; `headersNoBody` is the `if (!res.body) return res` path;
`streamSuccess` stores the merged buffer in `memCache`, resolves the
waiters and deletes the in-flight entry; `streamFail` deletes the
in-flight entry (permitting a retry). -/
inductive FetchEvent where
  | passthrough (url : String)
  | cacheHit (url : String)
  | joinInflight (url : String)
  | networkIssue (url : String)
  | headersArrive (url : String)
  | headersNoBody (url : String)
  | streamSuccess (url : String) (chunks : List (List Nat))
  | streamFail (url : String)
deriving DecidableEq, Repr

/-- One step of the patched-fetch layer: `none` means the event cannot
happen in that state (its guard in the code is not satisfied). -/
def stepFetch (s : FetchState) : FetchEvent → Option FetchState
  | .passthrough url =>
      if fetchDispatch s url = .passthrough then some s else none
  | .cacheHit url =>
      match fetchDispatch s url with
      | .cacheHit _ => some s
      | _ => none
  | .joinInflight url =>
      if fetchDispatch s url = .joinInflight then some s else none
  | .networkIssue url =>
      if fetchDispatch s url = .network then
        some { s with pendingNet := url :: s.pendingNet }
      else none
  | .headersArrive url =>
      if s.pendingNet.contains url then
        some { s with pendingNet := s.pendingNet.erase url, inflight := url :: s.inflight }
      else none
  | .headersNoBody url =>
      if s.pendingNet.contains url then
        some { s with pendingNet := s.pendingNet.erase url }
      else none
  | .streamSuccess url chunks =>
      if s.inflight.contains url then
        some { s with memCache := (url, mergeChunks chunks) :: s.memCache,
                      inflight := s.inflight.erase url }
      else none
  | .streamFail url =>
      if s.inflight.contains url then
        some { s with inflight := s.inflight.erase url }
      else none

/-- Run a list of events from a state; `none` if any event is not enabled. -/
def runTrace (s : FetchState) : List FetchEvent → Option FetchState
  | [] => some s
  | e :: rest =>
    match stepFetch s e with
    | some s' => runTrace s' rest
    | none => none

/-- Number of underlying network requests a trace issues for a URL. -/
def networkRequestCount (trace : List FetchEvent) (url : String) : Nat :=
  trace.countP (fun e => e = FetchEvent.networkIssue url)

/-- A concrete matching artifact URL used in the counterexample. -/
def demoOnnxUrl : String := "a/onnx/m"

theorem cached_no_network (s : FetchState) (url : String) (buf : List Nat)
    (h : s.memCache.lookup url = some buf) :
    stepFetch s (.networkIssue url) = none := by
  simp only [stepFetch]
  by_cases hinc : urlIncludes url ONNX_PATH_HINT = false
  · simp [fetchDispatch, hinc]
  · simp [fetchDispatch, hinc, h]

theorem stepFetch_cache_mono (s s' : FetchState) (e : FetchEvent) (url : String)
    (buf : List Nat) (hstep : stepFetch s e = some s')
    (hc : s.memCache.lookup url = some buf) :
    ∃ buf', s'.memCache.lookup url = some buf' := by
  cases e with
  | streamSuccess u chunks =>
    simp only [stepFetch] at hstep
    split at hstep
    · obtain rfl : _ = s' := Option.some.inj hstep
      by_cases hbe : url == u
      · exact ⟨mergeChunks chunks, by simp [List.lookup, hbe]⟩
      · exact ⟨buf, by simp [List.lookup, hbe, hc]⟩
    · cases hstep
  | passthrough u =>
    simp only [stepFetch] at hstep
    split at hstep
    · exact ⟨buf, by simp_all⟩
    · cases hstep
  | cacheHit u =>
    simp only [stepFetch] at hstep
    split at hstep
    · exact ⟨buf, by simp_all⟩
    · cases hstep
  | joinInflight u =>
    simp only [stepFetch] at hstep
    split at hstep
    · exact ⟨buf, by simp_all⟩
    · cases hstep
  | networkIssue u =>
    simp only [stepFetch] at hstep
    split at hstep
    · obtain rfl : _ = s' := Option.some.inj hstep
      exact ⟨buf, hc⟩
    · cases hstep
  | headersArrive u =>
    simp only [stepFetch] at hstep
    split at hstep
    · obtain rfl : _ = s' := Option.some.inj hstep
      exact ⟨buf, hc⟩
    · cases hstep
  | headersNoBody u =>
    simp only [stepFetch] at hstep
    split at hstep
    · obtain rfl : _ = s' := Option.some.inj hstep
      exact ⟨buf, hc⟩
    · cases hstep
  | streamFail u =>
    simp only [stepFetch] at hstep
    split at hstep
    · obtain rfl : _ = s' := Option.some.inj hstep
      exact ⟨buf, hc⟩
    · cases hstep

theorem runTrace_cache_mono (trace : List FetchEvent) :
    ∀ (s s' : FetchState) (url : String) (buf : List Nat),
      runTrace s trace = some s' → s.memCache.lookup url = some buf →
      ∃ buf', s'.memCache.lookup url = some buf' := by
  induction trace with
  | nil =>
    intro s s' url buf hrun hc
    obtain rfl : s = s' := Option.some.inj hrun
    exact ⟨buf, hc⟩
  | cons e rest ih =>
    intro s s' url buf hrun hc
    simp only [runTrace] at hrun
    cases h1 : stepFetch s e with
    | none => rw [h1] at hrun; cases hrun
    | some s1 =>
      rw [h1] at hrun
      obtain ⟨buf1, hc1⟩ := stepFetch_cache_mono s s1 e url buf h1 hc
      exact ih s1 s' url buf1 hrun hc1

/-- C1 counterexample: starting from the freshly patched module, two
consecutive calls of the patched fetch for the same matching URL — the
second arriving while the first network request is still outstanding
(its response headers have not arrived, so `inflight.set` has not run
yet) — BOTH take the network branch.  The run is valid, ends with two
pending network requests for the URL, and counts two underlying network
requests, refuting "at most one network request per URL while one is in
flight".  (A second violation of at-most-once-per-lifetime: after
`streamFail` deletes the in-flight entry, a retry issues a fresh network
request.) -/
theorem fetch_two_network_requests_while_first_in_flight :
    runTrace initFetchState [.networkIssue demoOnnxUrl, .networkIssue demoOnnxUrl] =
      some { memCache := [], inflight := [], pendingNet := [demoOnnxUrl, demoOnnxUrl] } ∧
    networkRequestCount [.networkIssue demoOnnxUrl, .networkIssue demoOnnxUrl] demoOnnxUrl
      = 2 := by
  exact ⟨by decide, by decide⟩

/-- C1 (amended): the single-flight/caching discipline that the code does
maintain.  (i) If a matching URL has a registered in-flight entry (and no
cache entry) the patched fetch takes the join branch and cannot issue a
network request.  (ii) If the URL is cached, no network request can be
issued.  (iii) The buffer resolved to every single-flight waiter (and
stored in the cache) is byte-for-byte the concatenation of the chunks
streamed to the primary requester, so all concurrent requesters receive
byte-identical content.  (iv) A successful stream completion caches
exactly that buffer.  (v) Once a URL is cached it stays cached through
any further valid trace, and no later call can issue a network request
for it — so after the first success the URL is never fetched again.  What
the code does NOT guarantee (see the counterexample) is single-flight in
the window between issuing a request and its headers arriving, nor
at-most-once after a failed attempt. -/
theorem fetch_single_flight_amended :
    (∀ (s : FetchState) (url : String),
        urlIncludes url ONNX_PATH_HINT = true →
        s.memCache.lookup url = none →
        s.inflight.contains url = true →
        fetchDispatch s url = .joinInflight ∧ stepFetch s (.networkIssue url) = none) ∧
    (∀ (s : FetchState) (url : String) (buf : List Nat),
        s.memCache.lookup url = some buf →
        fetchDispatch s url ≠ .network ∧ stepFetch s (.networkIssue url) = none) ∧
    (∀ chunks : List (List Nat), mergeChunks chunks = chunks.flatten) ∧
    (∀ (s : FetchState) (url : String) (chunks : List (List Nat)) (s' : FetchState),
        stepFetch s (.streamSuccess url chunks) = some s' →
        s'.memCache.lookup url = some (mergeChunks chunks)) ∧
    (∀ (s : FetchState) (url : String) (buf : List Nat) (trace : List FetchEvent)
        (s' : FetchState),
        s.memCache.lookup url = some buf → runTrace s trace = some s' →
        stepFetch s' (.networkIssue url) = none) := by
  refine ⟨?_, ?_, mergeChunks_eq_flatten, ?_, ?_⟩
  · intro s url hinc hnone hin
    have hdisp : fetchDispatch s url = .joinInflight := by
      have hin' : url ∈ s.inflight := by simpa using hin
      simp [fetchDispatch, hinc, hnone, hin']
    exact ⟨hdisp, by simp [stepFetch, hdisp]⟩
  · intro s url buf h
    constructor
    · by_cases hinc : urlIncludes url ONNX_PATH_HINT = false
      · simp [fetchDispatch, hinc]
      · simp [fetchDispatch, hinc, h]
    · exact cached_no_network s url buf h
  · intro s url chunks s' hstep
    simp only [stepFetch] at hstep
    split at hstep
    · obtain rfl : _ = s' := Option.some.inj hstep
      simp [List.lookup]
    · cases hstep
  · intro s url buf trace s' hc hrun
    obtain ⟨buf', hc'⟩ := runTrace_cache_mono trace s s' url buf hrun hc
    exact cached_no_network s' url buf' hc'

/-- Witness for `fetch_single_flight_amended`: a state with the demo URL
registered in-flight takes the join branch and cannot issue a network
request; a state with the demo URL cached cannot issue one either. -/
theorem fetch_single_flight_amended_witness :
    (urlIncludes demoOnnxUrl ONNX_PATH_HINT = true ∧
     (⟨[], [demoOnnxUrl], []⟩ : FetchState).memCache.lookup demoOnnxUrl = none ∧
     (⟨[], [demoOnnxUrl], []⟩ : FetchState).inflight.contains demoOnnxUrl = true ∧
     fetchDispatch ⟨[], [demoOnnxUrl], []⟩ demoOnnxUrl = .joinInflight) ∧
    ((⟨[(demoOnnxUrl, [7, 8])], [], []⟩ : FetchState).memCache.lookup demoOnnxUrl
        = some [7, 8] ∧
     stepFetch ⟨[(demoOnnxUrl, [7, 8])], [], []⟩ (.networkIssue demoOnnxUrl) = none) := by
  refine ⟨⟨by decide, by decide, by decide, ?_⟩, ⟨by decide, ?_⟩⟩
  · exact (fetch_single_flight_amended.1 ⟨[], [demoOnnxUrl], []⟩ demoOnnxUrl
      (by decide) (by decide) (by decide)).1
  · exact (fetch_single_flight_amended.2.1 ⟨[(demoOnnxUrl, [7, 8])], [], []⟩ demoOnnxUrl
      [7, 8] (by decide)).2

/-! ## Session manager (`src/init.ts`: `forceWASMMode`, `selectDevice`, `init`) -/

/-- Execution backend selected for the inference collaborator. -/
inductive Device where
  | webgpu
  | wasm
deriving DecidableEq, Repr

/-- Numeric precision passed to the inference collaborator. -/
inductive Dtype where
  | fp16
  | fp32
deriving DecidableEq, Repr

/-- One in-progress `init` body: the promise identity handed to callers,
the progress session id it allocated, and the device/precision it chose
for `AutoModel.from_pretrained`. -/
structure PendingLoad where
  pid : Nat
  sessionId : Int
  device : Device
  dtype : Dtype
deriving DecidableEq, Repr

/-- The mutable module state of `src/init.ts`: the progress singleton,
`activeSessionId`, the memoized `cachedLoad` promise (by identity),
the one-shot `forceWasmNext` flag, a fresh-promise counter, the set of
started-but-unresolved `init` bodies, the number of times the inference
collaborator's model-load entry point (`AutoModel.from_pretrained`) has
been invoked, and the record of promise resolutions (pid, success?). -/
structure InitState where
  prog : ProgressState
  activeSessionId : Int
  cachedLoad : Option Nat
  forceWasmNext : Bool
  nextPid : Nat
  pending : List PendingLoad
  modelLoads : Nat
  outcomes : List (Nat × Bool)
deriving DecidableEq, Repr

/-- Module state at import time: `activeSessionId = 0`, `cachedLoad =
null`, `forceWasmNext = false`. -/
def initInitState : InitState :=
  { prog := initialProgressState, activeSessionId := 0, cachedLoad := none,
    forceWasmNext := false, nextPid := 0, pending := [], modelLoads := 0,
    outcomes := [] }

/-- `forceWASMMode()`: `forceWasmNext = true; cachedLoad = null`. -/
def forceWASMMode (s : InitState) : InitState :=
  { s with forceWasmNext := true, cachedLoad := none }

/-- `selectDevice()`: `'wasm'` when the one-shot flag is armed, otherwise
`'webgpu'` exactly when WebGPU adapter negotiation succeeds (passed in as
the environment answer `gpuAvailable`). -/
def selectDevice (forceWasmNext gpuAvailable : Bool) : Device :=
  if forceWasmNext then .wasm else if gpuAvailable then .webgpu else .wasm

/-- One call of `init(setModelLoaded)`.  If `cachedLoad` is non-null it is
returned unchanged (and nothing else runs).  Otherwise the async body is
started: it allocates a fresh promise, begins a new progress session,
stores it into `activeSessionId`, selects the device (honouring the
one-shot flag) and precision (`fp16` only on WebGPU with shader-f16,
passed in as the environment answer `hasFP16`; WASM always gets `fp32`),
and invokes the collaborator's model load once.  The body runs to its
first genuine suspension here; its completion is a separate `loadSuccess`
or `loadFail` event. -/
def initCall (gpuAvailable hasFP16 : Bool) (s : InitState) : InitState × Nat :=
  match s.cachedLoad with
  | some p => (s, p)
  | none =>
    let pid := s.nextPid
    let bs := beginNewSession s.prog
    let device := selectDevice s.forceWasmNext gpuAvailable
    let dtype := if device = Device.webgpu then
        (if hasFP16 then Dtype.fp16 else Dtype.fp32) else Dtype.fp32
    ({ prog := bs.1, activeSessionId := bs.2, cachedLoad := some pid,
       forceWasmNext := s.forceWasmNext, nextPid := pid + 1,
       pending := ⟨pid, bs.2, device, dtype⟩ :: s.pending,
       modelLoads := s.modelLoads + 1, outcomes := s.outcomes }, pid)

/-- `n` consecutive calls of `init` (the synchronous prefixes of `n`
concurrent callers), collecting the promise each caller receives. -/
def initCalls (gpuAvailable hasFP16 : Bool) : Nat → InitState → InitState × List Nat
  | 0, s => (s, [])
  | n + 1, s =>
    let r := initCall gpuAvailable hasFP16 s
    let rest := initCalls gpuAvailable hasFP16 n r.1
    (rest.1, r.2 :: rest.2)

/-- Successful completion of the `init` body `pid`: `setBuilding` after
the model loads, `setReady` after the processor loads, then
`forceWasmNext = false` and the promise resolves with the handle pair. -/
def loadSuccess (pid : Nat) (s : InitState) : InitState :=
  match s.pending.find? (fun q => q.pid == pid) with
  | none => s
  | some pl =>
    { s with prog := (setReady pl.sessionId (setBuilding pl.sessionId s.prog).1).1,
             forceWasmNext := false,
             pending := s.pending.filter (fun q => q.pid != pid),
             outcomes := (pid, true) :: s.outcomes }

/-- Failing completion of the `init` body `pid` (the catch block):
`cachedLoad = null`, then `onnxProgress.setError(activeSessionId, msg)` —
note: the CURRENT `activeSessionId`, not the session id this body
allocated — and the promise rejects (`throw e`), recorded in `outcomes`.
`forceWasmNext` is not touched. -/
def loadFail (msg : String) (pid : Nat) (s : InitState) : InitState :=
  match s.pending.find? (fun q => q.pid == pid) with
  | none => s
  | some _ =>
    { s with cachedLoad := none,
             prog := (setError s.activeSessionId (some msg) s.prog).1,
             pending := s.pending.filter (fun q => q.pid != pid),
             outcomes := (pid, false) :: s.outcomes }

theorem initCalls_cached (g f : Bool) (n : Nat) :
    ∀ (s : InitState) (p : Nat), s.cachedLoad = some p →
      initCalls g f n s = (s, List.replicate n p) := by
  induction n with
  | zero => intro s p _; simp [initCalls]
  | succ m ih =>
    intro s p hc
    simp only [initCalls, initCall, hc, ih s p hc, List.replicate_succ]

/-- C2: single-flight model acquisition.  (i) While a memoized session
promise exists, `init` returns it unchanged — same promise, no state
change, hence all callers resolve to the same `{model, processor}` pair.
(ii) Any number `n + 1` of concurrent `init` callers starting from an
unmemoized state invoke the inference collaborator's model-load entry
point exactly once and all receive the one promise created by the first
caller. -/
theorem load_single_flight_memoized :
    (∀ (s : InitState) (g f : Bool) (p : Nat),
        s.cachedLoad = some p → initCall g f s = (s, p)) ∧
    (∀ (s : InitState) (g f : Bool) (n : Nat),
        s.cachedLoad = none →
        (initCalls g f (n + 1) s).1.modelLoads = s.modelLoads + 1 ∧
        (initCalls g f (n + 1) s).2 = List.replicate (n + 1) s.nextPid) := by
  constructor
  · intro s g f p hc
    simp [initCall, hc]
  · intro s g f n hc
    simp only [initCalls, initCall, hc]
    rw [initCalls_cached g f n _ s.nextPid rfl]
    simp [List.replicate_succ]

/-- Witness for `load_single_flight_memoized`: ten concurrent `load()`
callers from the fresh module state issue exactly one collaborator load
and all share promise 0. -/
theorem load_single_flight_memoized_witness :
    (initInitState.cachedLoad = none ∧
     (initCalls true true 10 initInitState).1.modelLoads = initInitState.modelLoads + 1 ∧
     (initCalls true true 10 initInitState).2 = List.replicate 10 initInitState.nextPid) ∧
    ((initCall true true initInitState).1.cachedLoad = some 0 ∧
     initCall true true (initCall true true initInitState).1 =
       ((initCall true true initInitState).1, 0)) := by
  constructor
  · exact ⟨rfl, (load_single_flight_memoized.2 initInitState true true 9 rfl).1,
      (load_single_flight_memoized.2 initInitState true true 9 rfl).2⟩
  · exact ⟨by decide, load_single_flight_memoized.1 (initCall true true initInitState).1
      true true 0 (by decide)⟩

/-- C6 counterexample: after `forceWASMMode()`, the next `load()` does
select wasm even with WebGPU available — but when that load FAILS, the
catch block does not clear `forceWasmNext` (only the success path does),
so the flag survives and the call after that one still selects wasm.
This refutes "the flag is consumed by that next load() regardless of
whether it succeeds or fails". -/
theorem forceWASM_flag_survives_failed_load :
    ((initCall true true (forceWASMMode initInitState)).1.pending.head?.map
        PendingLoad.device = some .wasm) ∧
    ((loadFail "boom" 0 (initCall true true (forceWASMMode initInitState)).1).forceWasmNext
        = true) ∧
    ((initCall true true
        (loadFail "boom" 0 (initCall true true (forceWASMMode initInitState)).1)).1.pending.head?.map
        PendingLoad.device = some .wasm) := by
  exact ⟨by decide, by decide, by decide⟩

/-- C6 (amended): `forceWASMMode` invalidates the memoized session and
arms the flag; a `load()` started while the flag is armed selects the
universal-fallback configuration (wasm, fp32) even when the accelerated
path is available; the flag is cleared when — and only when — a load
completes successfully, so after a SUCCESSFUL forced load the next call
may select the accelerated path, but a FAILED forced load leaves the flag
armed and it affects subsequent calls (see the counterexample). -/
theorem forceFallback_one_shot_amended :
    (∀ s : InitState,
        (forceWASMMode s).cachedLoad = none ∧ (forceWASMMode s).forceWasmNext = true) ∧
    (∀ (s : InitState) (g f : Bool),
        s.cachedLoad = none → s.forceWasmNext = true →
        ∃ pl : PendingLoad, (initCall g f s).1.pending.head? = some pl ∧
          pl.device = .wasm ∧ pl.dtype = .fp32) ∧
    (∀ (s : InitState) (pid : Nat) (pl : PendingLoad),
        s.pending.find? (fun q => q.pid == pid) = some pl →
        (loadSuccess pid s).forceWasmNext = false) ∧
    (∀ (s : InitState) (msg : String) (pid : Nat) (pl : PendingLoad),
        s.pending.find? (fun q => q.pid == pid) = some pl →
        (loadFail msg pid s).forceWasmNext = s.forceWasmNext) := by
  refine ⟨?_, ?_, ?_, ?_⟩
  · intro s; exact ⟨rfl, rfl⟩
  · intro s g f hc hflag
    refine ⟨⟨s.nextPid, (beginNewSession s.prog).2, .wasm, .fp32⟩, ?_, rfl, rfl⟩
    simp [initCall, hc, selectDevice, hflag]
  · intro s pid pl hfind
    simp [loadSuccess, hfind]
  · intro s msg pid pl hfind
    simp [loadFail, hfind]

/-- Witness for `forceFallback_one_shot_amended`: the concrete
forced-then-loaded sequence from the fresh module state, and a successful
load clearing the flag. -/
theorem forceFallback_one_shot_amended_witness :
    ((forceWASMMode initInitState).cachedLoad = none ∧
     (forceWASMMode initInitState).forceWasmNext = true ∧
     (∃ pl : PendingLoad,
        (initCall true true (forceWASMMode initInitState)).1.pending.head? = some pl ∧
        pl.device = .wasm ∧ pl.dtype = .fp32)) ∧
    ((initCall true true (forceWASMMode initInitState)).1.pending.find?
        (fun q => q.pid == 0) = some ⟨0, 1, .wasm, .fp32⟩ ∧
     (loadSuccess 0 (initCall true true (forceWASMMode initInitState)).1).forceWasmNext
        = false) := by
  refine ⟨⟨?_, ?_, ?_⟩, ⟨?_, ?_⟩⟩
  · exact (forceFallback_one_shot_amended.1 initInitState).1
  · exact (forceFallback_one_shot_amended.1 initInitState).2
  · exact forceFallback_one_shot_amended.2.1 (forceWASMMode initInitState) true true
      (by decide) (by decide)
  · decide
  · exact forceFallback_one_shot_amended.2.2.1
      (initCall true true (forceWASMMode initInitState)).1 0 ⟨0, 1, .wasm, .fp32⟩ (by decide)

/-- C7 counterexample: load 1 starts (it allocates progress session 1),
`forceWASMMode()` clears the memo, load 2 starts (session 2, now the
active session).  When load 1 then fails, the catch block reports
`setError(activeSessionId)` — session 2, NOT the session that failed —
so the visible error state carries sessionId 2 while the failing load's
allocated session was 1 (and the newer load's memoized promise is also
clobbered to null).  This refutes "reports an error progress state for
the session that failed (the sessionId allocated by that load)". -/
theorem load_failure_error_misattributed :
    (((initCall true true (forceWASMMode (initCall true true initInitState).1)).1.pending.find?
        (fun q => q.pid == 0)).map PendingLoad.sessionId = some 1) ∧
    ((loadFail "boom" 0
        (initCall true true (forceWASMMode (initCall true true initInitState).1)).1).prog.phase
      = ProgressPhase.error) ∧
    ((loadFail "boom" 0
        (initCall true true (forceWASMMode (initCall true true initInitState).1)).1).prog.sessionId
      = 2) ∧
    ((2 : Int) ≠ 1) := by
  exact ⟨by decide, by decide, by decide, by decide⟩

/-- C7 (amended): when the `init` body `pid` fails, the memoized session
is unconditionally invalidated (a later `load()` starts fresh), the
rejection is recorded for re-raising to every caller of the shared
promise, and an error progress state is reported for the session that is
ACTIVE at failure time — which equals the failing load's own allocated
session precisely when no newer session has begun; when a newer session
is active the error is attributed to that newer session instead (see the
counterexample). -/
theorem load_failure_cleanup_amended :
    (∀ (s : InitState) (msg : String) (pid : Nat) (pl : PendingLoad),
        s.pending.find? (fun q => q.pid == pid) = some pl →
        (loadFail msg pid s).cachedLoad = none ∧
        (loadFail msg pid s).outcomes.head? = some (pid, false)) ∧
    (∀ (s : InitState) (msg : String) (pid : Nat) (pl : PendingLoad),
        s.pending.find? (fun q => q.pid == pid) = some pl →
        s.activeSessionId = pl.sessionId →
        s.prog.sessionId = s.activeSessionId →
        (loadFail msg pid s).prog.phase = .error ∧
        (loadFail msg pid s).prog.sessionId = pl.sessionId ∧
        (loadFail msg pid s).prog.errorMsg = some msg ∧
        (loadFail msg pid s).prog.progress = 0) := by
  constructor
  · intro s msg pid pl hfind
    refine ⟨?_, ?_⟩ <;> simp [loadFail, hfind]
  · intro s msg pid pl hfind hact hprog
    have hsid : s.prog.sessionId = pl.sessionId := by rw [hprog, hact]
    refine ⟨?_, ?_, ?_, ?_⟩ <;>
      simp [loadFail, hfind, setError, hact, hprog, hsid]

/-- Witness for `load_failure_cleanup_amended`: a failing load whose
session is still the active one — cleanup and a correctly attributed
error. -/
theorem load_failure_cleanup_amended_witness :
    ((initCall true true initInitState).1.pending.find? (fun q => q.pid == 0)
        = some ⟨0, 1, .webgpu, .fp16⟩ ∧
     (loadFail "boom" 0 (initCall true true initInitState).1).cachedLoad = none ∧
     (loadFail "boom" 0 (initCall true true initInitState).1).outcomes.head?
        = some (0, false)) ∧
    ((initCall true true initInitState).1.activeSessionId = (1 : Int) ∧
     (loadFail "boom" 0 (initCall true true initInitState).1).prog.phase = .error ∧
     (loadFail "boom" 0 (initCall true true initInitState).1).prog.sessionId = 1 ∧
     (loadFail "boom" 0 (initCall true true initInitState).1).prog.errorMsg = some "boom") := by
  have h1 := load_failure_cleanup_amended.1 (initCall true true initInitState).1 "boom" 0
    ⟨0, 1, .webgpu, .fp16⟩ (by decide)
  have h2 := load_failure_cleanup_amended.2 (initCall true true initInitState).1 "boom" 0
    ⟨0, 1, .webgpu, .fp16⟩ (by decide) (by decide) (by decide)
  exact ⟨⟨by decide, h1.1, h1.2⟩, ⟨by decide, h2.1, h2.2.1, h2.2.2.1⟩⟩

/-! ## Compositing engine (worker `rembg-compositor.worker.ts` and the
main-thread fallback in `src/index.ts`) -/

/-- One RGBA pixel of a canvas `ImageData` block. -/
structure Rgba where
  r : Nat
  g : Nat
  b : Nat
  a : Nat
deriving DecidableEq, Repr

/-- The stripe height constant `H_CHUNK = 512` shared by the worker and
the fallback. -/
def H_CHUNK : Nat := 512

/-- The inner double loop of the worker over one strip read at row `y0`:
for flat strip index `j = row * width + x` the loop executes
`dataRGBA[rowStartRGBA + x*4 + 3] = alpha[rowStartAlpha + x]` with
`rowStartAlpha = y0*width + row*width`, i.e. it overwrites only the alpha
byte of pixel `j` with `alpha[y0*width + j]` and leaves r, g, b intact.
An out-of-range read of the JS typed array yields `undefined`, which a
`Uint8ClampedArray` store coerces to 0 — hence `List.getD _ _ 0`. -/
def stripCompose (width y0 : Nat) (alpha : List Nat) (strip : Nat → Rgba) : Nat → Rgba :=
  fun j => { strip j with a := alpha.getD (y0 * width + j) 0 }

/-- The worker's chunked stripe loop (`for (let y0 = 0; y0 < height; y0 +=
H_CHUNK)`): read the full-width strip of `min H_CHUNK (height - y0)` rows
starting at row `y0` (`getImageData(0, y0, width, h)`, flat strip index
`j` addressing surface index `y0*width + j`), overwrite its alpha bytes
from the alpha buffer, and write it back over exactly the region
`[y0*width, y0*width + h*width)` (`putImageData(strip, 0, y0)`).  The
canvas is modelled as its row-major pixel map `Nat → Rgba`. -/
def compositeFrom (width height : Nat) (alpha : List Nat) (surface : Nat → Rgba)
    (y0 : Nat) : Nat → Rgba :=
  if _h : y0 < height then
    let hh := min H_CHUNK (height - y0)
    let strip : Nat → Rgba := fun j => surface (y0 * width + j)
    let strip2 := stripCompose width y0 alpha strip
    let surface2 : Nat → Rgba := fun i =>
      if y0 * width ≤ i ∧ i < y0 * width + hh * width then strip2 (i - y0 * width)
      else surface i
    compositeFrom width height alpha surface2 (y0 + H_CHUNK)
  else surface
termination_by height - y0
decreasing_by simp only [H_CHUNK]; omega

/-- The worker path's whole-surface composite: the stripe loop from row 0. -/
def compositeWorker (width height : Nat) (alpha : List Nat) (surface : Nat → Rgba) :
    Nat → Rgba :=
  compositeFrom width height alpha surface 0

/-- The inner double loop of the main-thread fallback in
`removeBackground` — textually the same loop as the worker's
(`data[rowStartRGBA + x*4 + 3] = alpha[rowStartAlpha + x]`). -/
def stripComposeMain (width y0 : Nat) (alpha : List Nat) (strip : Nat → Rgba) : Nat → Rgba :=
  fun j => { strip j with a := alpha.getD (y0 * width + j) 0 }

/-- The main-thread fallback's chunked stripe loop in `removeBackground`
(`src/index.ts`), identical in structure to the worker's. -/
def compositeFromMain (width height : Nat) (alpha : List Nat) (surface : Nat → Rgba)
    (y0 : Nat) : Nat → Rgba :=
  if _h : y0 < height then
    let hh := min H_CHUNK (height - y0)
    let strip : Nat → Rgba := fun j => surface (y0 * width + j)
    let strip2 := stripComposeMain width y0 alpha strip
    let surface2 : Nat → Rgba := fun i =>
      if y0 * width ≤ i ∧ i < y0 * width + hh * width then strip2 (i - y0 * width)
      else surface i
    compositeFromMain width height alpha surface2 (y0 + H_CHUNK)
  else surface
termination_by height - y0
decreasing_by simp only [H_CHUNK]; omega

/-- The fallback path's whole-surface composite. -/
def compositeFallback (width height : Nat) (alpha : List Nat) (surface : Nat → Rgba) :
    Nat → Rgba :=
  compositeFromMain width height alpha surface 0

theorem compositeFrom_apply (width height : Nat) (alpha : List Nat) :
    ∀ (n y0 : Nat) (surface : Nat → Rgba), height - y0 ≤ n → ∀ i : Nat,
      compositeFrom width height alpha surface y0 i =
        if y0 * width ≤ i ∧ i < height * width then
          { surface i with a := alpha.getD i 0 }
        else surface i := by
  intro n
  induction n with
  | zero =>
    intro y0 surface hle i
    have hy : ¬ y0 < height := by omega
    rw [compositeFrom.eq_def]
    simp only [hy, dite_false]
    have hcond : ¬ (y0 * width ≤ i ∧ i < height * width) := by
      rintro ⟨h1, h2⟩
      have := Nat.mul_le_mul_right width (show height ≤ y0 by omega)
      omega
    simp [hcond]
  | succ m ih =>
    intro y0 surface hle i
    rw [compositeFrom.eq_def]
    by_cases hy : y0 < height
    · simp only [hy, dite_true]
      rw [ih (y0 + H_CHUNK) _ (by simp only [H_CHUNK]; omega)]
      have hmin : min H_CHUNK (height - y0) ≤ H_CHUNK := Nat.min_le_left _ _
      have hmin2 : y0 + min H_CHUNK (height - y0) ≤ height := by omega
      have hreg : y0 * width + min H_CHUNK (height - y0) * width =
          (y0 + min H_CHUNK (height - y0)) * width := by
        rw [Nat.add_mul]
      have hregh : (y0 + min H_CHUNK (height - y0)) * width ≤ height * width :=
        Nat.mul_le_mul_right width hmin2
      have hregc : (y0 + min H_CHUNK (height - y0)) * width ≤ (y0 + H_CHUNK) * width :=
        Nat.mul_le_mul_right width (by omega)
      by_cases h1 : y0 * width ≤ i
      · by_cases h2 : i < height * width
        · by_cases h3 : i < y0 * width + min H_CHUNK (height - y0) * width
          · have hlt : ¬ (y0 + H_CHUNK) * width ≤ i := by omega
            simp only [hlt, false_and, if_false, h1, h3, and_self, if_true,
              stripCompose]
            have hidx : y0 * width + (i - y0 * width) = i := by omega
            rw [hidx]
            simp [h1, h2]
          · have hfull : min H_CHUNK (height - y0) = H_CHUNK := by
              rcases Nat.le_total H_CHUNK (height - y0) with hc | hc
              · exact Nat.min_eq_left hc
              · exfalso
                have heq : y0 * width + (height - y0) * width = height * width := by
                  rw [← Nat.add_mul]
                  congr 1
                  omega
                exact h3 (by rw [Nat.min_eq_right hc, heq]; exact h2)
            have hge : (y0 + H_CHUNK) * width ≤ i := by
              rw [Nat.add_mul]
              rw [hfull] at h3
              omega
            have hnlt : ¬ i < y0 * width + min H_CHUNK (height - y0) * width := h3
            simp [hge, h2, h1, hnlt]
        · have hno : ¬ ((y0 + H_CHUNK) * width ≤ i ∧ i < height * width) := by
            intro hc; exact h2 hc.2
          have hno2 : ¬ (y0 * width ≤ i ∧ i < height * width) := by
            intro hc; exact h2 hc.2
          simp only [hno, if_false, hno2]
          have hnreg : ¬ (y0 * width ≤ i ∧
              i < y0 * width + min H_CHUNK (height - y0) * width) := by
            rintro ⟨hc1, hc2⟩
            omega
          simp [hnreg]
      · have hlt : i < y0 * width := by omega
        have hno : ¬ ((y0 + H_CHUNK) * width ≤ i ∧ i < height * width) := by
          rintro ⟨hc1, hc2⟩
          have : y0 * width ≤ (y0 + H_CHUNK) * width :=
            Nat.mul_le_mul_right width (by omega)
          omega
        have hno2 : ¬ (y0 * width ≤ i ∧ i < height * width) := by
          rintro ⟨hc1, hc2⟩; omega
        simp only [hno, if_false, hno2]
        have hnreg : ¬ (y0 * width ≤ i ∧
            i < y0 * width + min H_CHUNK (height - y0) * width) := by
          rintro ⟨hc1, hc2⟩; omega
        simp [hnreg]
    · simp only [hy, dite_false]
      have hcond : ¬ (y0 * width ≤ i ∧ i < height * width) := by
        rintro ⟨h1, h2⟩
        have := Nat.mul_le_mul_right width (show height ≤ y0 by omega)
        omega
      simp [hcond]

theorem compositeFromMain_eq_compositeFrom (width height : Nat) (alpha : List Nat) :
    ∀ (n y0 : Nat) (surface : Nat → Rgba), height - y0 ≤ n → ∀ i : Nat,
      compositeFromMain width height alpha surface y0 i =
        compositeFrom width height alpha surface y0 i := by
  intro n
  induction n with
  | zero =>
    intro y0 surface hle i
    have hy : ¬ y0 < height := by omega
    rw [compositeFromMain.eq_def, compositeFrom.eq_def]
    simp [hy]
  | succ m ih =>
    intro y0 surface hle i
    by_cases hy : y0 < height
    · rw [compositeFromMain.eq_def, compositeFrom.eq_def]
      simp only [hy, dite_true]
      have hstrip : stripComposeMain = stripCompose := rfl
      rw [hstrip]
      exact ih (y0 + H_CHUNK) _ (by simp only [H_CHUNK]; omega) i
    · rw [compositeFromMain.eq_def, compositeFrom.eq_def]
      simp [hy]

/-- C9: the stripe compositing algorithm (512-row chunks) sets the alpha
byte of every pixel `(x, y)` to exactly `alpha[y*width + x]` and leaves
the r, g, b bytes unchanged (the record update touches only `a` — no
smoothing or interpolation), and the worker path and the synchronous
main-thread fallback path compute byte-for-byte identical results for
the same width, height, alpha buffer and source surface. -/
theorem stripe_composite_alpha_exact :
    (∀ (width height : Nat) (alpha : List Nat) (surface : Nat → Rgba) (x y : Nat),
        alpha.length = width * height → x < width → y < height →
        compositeWorker width height alpha surface (y * width + x) =
          { surface (y * width + x) with a := alpha.getD (y * width + x) 0 }) ∧
    (∀ (width height : Nat) (alpha : List Nat) (surface : Nat → Rgba) (i : Nat),
        compositeFallback width height alpha surface i =
          compositeWorker width height alpha surface i) := by
  constructor
  · intro width height alpha surface x y _hlen hx hy
    rw [compositeWorker, compositeFrom_apply width height alpha height 0 surface (by omega)]
    have hin : y * width + x < height * width := by
      have h1 : y * width + x < (y + 1) * width := by
        rw [Nat.add_mul]; omega
      have h2 : (y + 1) * width ≤ height * width := Nat.mul_le_mul_right width (by omega)
      omega
    simp [hin]
  · intro width height alpha surface i
    rw [compositeWorker, compositeFallback]
    exact compositeFromMain_eq_compositeFrom width height alpha height 0 surface (by omega) i

/-- Witness for `stripe_composite_alpha_exact`: a 2×3 surface with the
alpha buffer `[10, 20, 30, 40, 50, 60]`; pixel (1, 2) gets alpha 60 and
keeps its colour, and the fallback agrees with the worker at index 0. -/
theorem stripe_composite_alpha_exact_witness :
    (([10, 20, 30, 40, 50, 60] : List Nat).length = 2 * 3 ∧ 1 < 2 ∧ 2 < 3 ∧
     compositeWorker 2 3 [10, 20, 30, 40, 50, 60] (fun i => ⟨i, i + 1, i + 2, 9⟩)
        (2 * 2 + 1) =
       { (fun i : Nat => (⟨i, i + 1, i + 2, 9⟩ : Rgba)) (2 * 2 + 1) with
         a := ([10, 20, 30, 40, 50, 60] : List Nat).getD (2 * 2 + 1) 0 }) ∧
    compositeFallback 2 3 [10, 20, 30, 40, 50, 60] (fun i => ⟨i, i + 1, i + 2, 9⟩) 0 =
      compositeWorker 2 3 [10, 20, 30, 40, 50, 60] (fun i => ⟨i, i + 1, i + 2, 9⟩) 0 := by
  refine ⟨⟨by decide, by decide, by decide, ?_⟩, ?_⟩
  · exact stripe_composite_alpha_exact.1 2 3 [10, 20, 30, 40, 50, 60]
      (fun i => ⟨i, i + 1, i + 2, 9⟩) 1 2 (by decide) (by decide) (by decide)
  · exact stripe_composite_alpha_exact.2 2 3 [10, 20, 30, 40, 50, 60]
      (fun i => ⟨i, i + 1, i + 2, 9⟩) 0

/-! ## Preview sizing and compose-input validation -/

/-- The preview dimensions computed identically by the worker
(`scale = Math.min(1, previewMax / maxSide)`,
`pW = Math.max(1, Math.round(width * scale))`,
`pH = Math.max(1, Math.round(height * scale))`) and by the main-thread
fallback in `removeBackground`.  Modelled over `ℚ`; Mathlib's `round`
(`⌊x + 1/2⌋`) agrees with JavaScript `Math.round` on the non-negative
values produced here. -/
def previewDims (width height previewMax : Nat) : Nat × Nat :=
  let maxSide : ℚ := max (width : ℚ) (height : ℚ)
  let scale : ℚ := min 1 ((previewMax : ℚ) / maxSide)
  (max 1 (round ((width : ℚ) * scale)).toNat,
   max 1 (round ((height : ℚ) * scale)).toNat)

theorem preview_side_le (d w h pm : Nat) (hd : d ≤ max w h) (hw : 1 ≤ max w h)
    (hpm : 1 ≤ pm) :
    max 1 (round ((d : ℚ) * min 1 ((pm : ℚ) / max (w : ℚ) (h : ℚ)))).toNat ≤ pm := by
  set M : ℚ := max (w : ℚ) (h : ℚ) with hM
  have hMcast : ((max w h : Nat) : ℚ) = M := by
    rw [hM, Nat.cast_max]
  have hMpos : 0 < M := by
    rw [← hMcast]
    exact_mod_cast Nat.lt_of_lt_of_le Nat.zero_lt_one hw
  have hscale0 : 0 ≤ min 1 ((pm : ℚ) / M) :=
    le_min zero_le_one (div_nonneg (Nat.cast_nonneg pm) (le_of_lt hMpos))
  have hdM : (d : ℚ) ≤ M := by
    rw [← hMcast]
    exact_mod_cast hd
  have hprod : (d : ℚ) * min 1 ((pm : ℚ) / M) ≤ pm := by
    calc (d : ℚ) * min 1 ((pm : ℚ) / M)
        ≤ M * min 1 ((pm : ℚ) / M) := mul_le_mul_of_nonneg_right hdM hscale0
      _ ≤ M * ((pm : ℚ) / M) := mul_le_mul_of_nonneg_left (min_le_right _ _) (le_of_lt hMpos)
      _ = pm := by field_simp
  have hfl : (⌊(pm : ℚ) + 1 / 2⌋ : ℤ) = pm := by
    rw [← round_eq, round_natCast]
  have hround : round ((d : ℚ) * min 1 ((pm : ℚ) / M)) ≤ (pm : ℤ) := by
    rw [round_eq]
    calc ⌊(d : ℚ) * min 1 ((pm : ℚ) / M) + 1 / 2⌋
        ≤ ⌊(pm : ℚ) + 1 / 2⌋ := Int.floor_le_floor (by linarith)
      _ = pm := hfl
  have htn : (round ((d : ℚ) * min 1 ((pm : ℚ) / M))).toNat ≤ pm := Int.toNat_le.mpr hround
  omega

/-- C10: the preview dimensions are `max 1 (round (dim * min 1
(previewMax / max width height)))` for each dimension (this is exactly
the code's formula), hence for positive inputs the preview's longer side
never exceeds the bound; in particular width 3000, height 1500,
previewMax 450 yields a 450×225 preview. -/
theorem preview_dims_bounded
    (w h pm : Nat) (hw : 1 ≤ w) (_hh : 1 ≤ h) (hpm : 1 ≤ pm) :
    previewDims w h pm =
      (max 1 (round ((w : ℚ) * min 1 ((pm : ℚ) / max (w : ℚ) (h : ℚ)))).toNat,
       max 1 (round ((h : ℚ) * min 1 ((pm : ℚ) / max (w : ℚ) (h : ℚ)))).toNat) ∧
    (previewDims w h pm).1 ≤ pm ∧ (previewDims w h pm).2 ≤ pm ∧
    previewDims 3000 1500 450 = (450, 225) := by
  have hmax : 1 ≤ max w h := le_trans hw (Nat.le_max_left w h)
  refine ⟨rfl, ?_, ?_, ?_⟩
  · exact preview_side_le w w h pm (Nat.le_max_left w h) hmax hpm
  · exact preview_side_le h w h pm (Nat.le_max_right w h) hmax hpm
  · show (max 1 (round ((3000 : ℚ) * min 1 ((450 : ℚ) / max (3000 : ℚ) (1500 : ℚ)))).toNat,
        max 1 (round ((1500 : ℚ) * min 1 ((450 : ℚ) / max (3000 : ℚ) (1500 : ℚ)))).toNat)
        = (450, 225)
    have h1 : max (3000 : ℚ) (1500 : ℚ) = 3000 := by norm_num
    have h2 : min (1 : ℚ) ((450 : ℚ) / 3000) = 3 / 20 := by
      rw [min_eq_right] <;> norm_num
    rw [h1, h2]
    have h3 : (3000 : ℚ) * (3 / 20) = ((450 : Nat) : ℚ) := by norm_num
    have h4 : (1500 : ℚ) * (3 / 20) = ((225 : Nat) : ℚ) := by norm_num
    rw [h3, h4, round_natCast, round_natCast]
    decide

/-- Witness for `preview_dims_bounded` at the spec's concrete instance. -/
theorem preview_dims_bounded_witness :
    (1 ≤ 3000 ∧ 1 ≤ 1500 ∧ 1 ≤ 450) ∧
    (previewDims 3000 1500 450).1 ≤ 450 ∧ (previewDims 3000 1500 450).2 ≤ 450 ∧
    previewDims 3000 1500 450 = (450, 225) := by
  have h := preview_dims_bounded 3000 1500 450 (by decide) (by decide) (by decide)
  exact ⟨⟨by decide, by decide, by decide⟩, h.2.1, h.2.2.1, h.2.2.2⟩

/-- The compositor worker's `onmessage` handler up to and including its
input validation, followed by the stripe composite and the preview-size
computation.  The guards mirror the source exactly and run BEFORE any
pixel is touched: `if (!width || !height || !bitmap) throw new
Error('Invalid compose arguments')`, then the alpha view is rebuilt and
checked (`if (alpha.length !== alphaLength) throw new Error('Alpha length
mismatch')`).  Only after both guards pass is the stripe loop
(`compositeWorker`) applied, so on every error path no pixel of the
source is processed. -/
def composeInWorker (width height : Nat) (bitmap : Option (Nat → Rgba))
    (alpha : List Nat) (alphaLength : Nat) (previewMax : Nat) :
    Except String ((Nat → Rgba) × Nat × Nat) :=
  if width == 0 || height == 0 || bitmap.isNone then
    .error "Invalid compose arguments"
  else if alpha.length != alphaLength then
    .error "Alpha length mismatch"
  else
    let surface := bitmap.getD (fun _ => ⟨0, 0, 0, 0⟩)
    .ok (compositeWorker width height alpha surface, previewDims width height previewMax)

/-- The compositing stage of `removeBackground` (`src/index.ts`): the
resampled mask is validated against the source dimensions — `if
(alpha.length !== originalWidth * originalHeight) throw new Error("Mask
size mismatch")` — BEFORE the compositing engine is invoked; only then is
the worker posted the message `{width, height, alphaBuffer, alphaLength:
alpha.length, bitmap, previewMax}`. -/
def removeBackgroundCompose (width height : Nat) (alpha : List Nat)
    (bitmap : Option (Nat → Rgba)) (previewMax : Nat) :
    Except String ((Nat → Rgba) × Nat × Nat) :=
  if alpha.length ≠ width * height then .error "Mask size mismatch"
  else composeInWorker width height bitmap alpha alpha.length previewMax

/-- C8: malformed compositing input is rejected with an error before any
pixel processing occurs.  An alpha buffer whose length differs from
width×height is rejected by the orchestrator ("Mask size mismatch")
before the compositing engine is even invoked; a zero width or height or
a missing bitmap is rejected by the worker's first guard ("Invalid
compose arguments") before the stripe loop.  In every such case the
result is an error — the composite (the only pixel-processing step,
which both definitions apply only after all guards pass) never runs. -/
theorem malformed_compose_rejected :
    (∀ (width height : Nat) (alpha : List Nat) (bitmap : Option (Nat → Rgba)) (pm : Nat),
        alpha.length ≠ width * height →
        removeBackgroundCompose width height alpha bitmap pm = .error "Mask size mismatch") ∧
    (∀ (width height : Nat) (alpha : List Nat) (bitmap : Option (Nat → Rgba)) (pm : Nat),
        width = 0 ∨ height = 0 ∨ bitmap.isNone = true →
        composeInWorker width height bitmap alpha alpha.length pm =
          .error "Invalid compose arguments" ∧
        ∃ msg, removeBackgroundCompose width height alpha bitmap pm = .error msg) := by
  constructor
  · intro w h alpha bm pm hne
    simp [removeBackgroundCompose, hne]
  · intro w h alpha bm pm hmal
    have hcond : (w == 0 || h == 0 || bm.isNone) = true := by
      rcases hmal with h0 | h0 | h0 <;> simp [h0]
    have hw : composeInWorker w h bm alpha alpha.length pm =
        .error "Invalid compose arguments" := by
      simp [composeInWorker, hcond]
    refine ⟨hw, ?_⟩
    by_cases hne : alpha.length ≠ w * h
    · exact ⟨"Mask size mismatch", by simp [removeBackgroundCompose, hne]⟩
    · refine ⟨"Invalid compose arguments", ?_⟩
      simp only [removeBackgroundCompose, if_neg hne]
      exact hw

/-- Witness for `malformed_compose_rejected`: a 3-byte alpha buffer for a
2×2 image is rejected with the mask-size error, and a zero-width message
is rejected by the worker guard. -/
theorem malformed_compose_rejected_witness :
    (([1, 2, 3] : List Nat).length ≠ 2 * 2 ∧
     removeBackgroundCompose 2 2 [1, 2, 3] (some fun _ => ⟨0, 0, 0, 255⟩) 450 =
       .error "Mask size mismatch") ∧
    ((0 = 0 ∨ 2 = 0 ∨ (some fun _ : Nat => (⟨0, 0, 0, 255⟩ : Rgba)).isNone = true) ∧
     composeInWorker 0 2 (some fun _ => ⟨0, 0, 0, 255⟩) [] ([] : List Nat).length 450 =
       .error "Invalid compose arguments") := by
  refine ⟨⟨by decide, ?_⟩, ⟨Or.inl rfl, ?_⟩⟩
  · exact malformed_compose_rejected.1 2 2 [1, 2, 3] (some fun _ => ⟨0, 0, 0, 255⟩) 450
      (by decide)
  · exact (malformed_compose_rejected.2 0 2 [] (some fun _ => ⟨0, 0, 0, 255⟩) 450
      (Or.inl rfl)).1
